import Mathlib

/-!
Shallow embedding of `api/server/middleware/buildEndpointOption.js` from the
LibreChat-mod repository: the request-normalization and dispatch middleware.

External collaborators (the compact-conversation parser, the provider option
builders, model-catalog retrieval and file processing) are modelled as
components of an `Env` record: the middleware only ever calls them through
their contracts.  Promises are modelled by the `Promise` wrapper type:
awaiting a promise is projecting its `resolve` field, and storing a promise
without awaiting it stores the `Promise` value itself.
-/

namespace LibreChat

/- Provider identifiers (`EModelEndpoint` of the `librechat-data-provider`
package, which lives in this repository outside the middleware file). -/
namespace EModelEndpoint

def openAI : String := "openAI"

def azureOpenAI : String := "azureOpenAI"

def google : String := "google"

def anthropic : String := "anthropic"

def custom : String := "custom"

def agents : String := "agents"

def bedrock : String := "bedrock"

def gptPlugins : String := "gptPlugins"

def assistants : String := "assistants"

def azureAssistants : String := "azureAssistants"

end EModelEndpoint

/-- Modelled from the spec: `isAgentsEndpoint` is provided by
`librechat-data-provider` (repository code not present under the middleware
sources); the spec describes the request-binding wrapper as applying exactly
to the "agents" provider family, so it is the equality test with the agents
identifier, with a nullish argument treated as the empty string. -/
def isAgentsEndpoint (e : Option String) : Bool :=
  (e.getD "") == EModelEndpoint.agents

/-- A raw conversation payload: the request body, or an administrator preset.
`params` stands for the arbitrary remaining conversation parameters
(e.g. `temperature`), opaque to the middleware. -/
structure ConvPayload where
  endpoint : Option String := none
  endpointType : Option String := none
  spec : Option String := none
  tools : Option (List String) := none
  files : Option (List String) := none
  params : List (String × String) := []
deriving DecidableEq, Repr

/-- An HTTP-style request as seen by the middleware: only its body matters. -/
structure Req where
  body : ConvPayload
deriving DecidableEq, Repr

/-- A normalized conversation, as returned by `parseCompactConvo`. -/
structure ParsedConv where
  spec : Option String := none
  params : List (String × String) := []
deriving DecidableEq, Repr

/-- The argument record of `parseCompactConvo`. -/
structure ParseInput where
  endpoint : Option String
  endpointType : Option String
  conversation : ConvPayload
deriving DecidableEq, Repr

/-- An administrator model spec: a unique name and a full conversation preset. -/
structure ModelSpec where
  name : String
  preset : ConvPayload
deriving DecidableEq, Repr

/-- The process-wide model-spec catalog (`req.app.locals.modelSpecs`). -/
structure ModelSpecsCfg where
  list : Option (List ModelSpec)
  enforce : Bool
deriving DecidableEq, Repr

/-- A promise: awaiting is projecting `resolve`; a stored `Promise` value is
an unawaited handle. -/
structure Promise (α : Type) where
  resolve : α
deriving DecidableEq, Repr

/-- The distinct builder functions imported by the middleware.  `openAI` and
`azureOpenAI` endpoints share the `openAI` builder module. -/
inductive BuilderId where
  | openAI
  | google
  | custom
  | agents
  | bedrock
  | anthropic
  | gptPlugins
  | assistants
  | azureAssistants
deriving DecidableEq, Repr

/-- The static dispatch table `buildFunction`, in source order. -/
def buildFunction (key : String) : Option BuilderId :=
  if key == EModelEndpoint.openAI then some .openAI
  else if key == EModelEndpoint.google then some .google
  else if key == EModelEndpoint.custom then some .custom
  else if key == EModelEndpoint.agents then some .agents
  else if key == EModelEndpoint.bedrock then some .bedrock
  else if key == EModelEndpoint.azureOpenAI then some .openAI
  else if key == EModelEndpoint.anthropic then some .anthropic
  else if key == EModelEndpoint.gptPlugins then some .gptPlugins
  else if key == EModelEndpoint.assistants then some .assistants
  else if key == EModelEndpoint.azureAssistants then some .azureAssistants
  else none

/-- The external collaborators and process-wide configuration the middleware
reads: the parser, catalog retrieval, file processing, and
`req.app.locals.modelSpecs`. -/
structure Env (Cfg Att : Type) where
  parseCompactConvo : ParseInput → Except String ParsedConv
  getModelsConfig : Req → Promise Cfg
  processFiles : List String → Promise Att
  modelSpecs : Option ModelSpecsCfg

/-- The record of the builder invocation
`builder(endpoint, parsedBody, endpointType)`: which builder was selected,
whether the original request was bound (the agents wrapper), and the
arguments passed. -/
structure BuilderCall where
  builderId : BuilderId
  reqBound : Bool
  endpoint : Option String
  conversation : ParsedConv
  endpointType : Option String
deriving DecidableEq, Repr

/-- The output artifact `req.body.endpointOption`: the builder call plus the
awaited catalog and the optional unawaited attachments promise. -/
structure EndpointOption (Cfg Att : Type) where
  builderCall : BuilderCall
  modelsConfig : Cfg
  attachments : Option (Promise Att)
deriving DecidableEq, Repr

/-- How one middleware run ends: `handled text` is a `handleError(res, text)`
call (the request terminated with a structured error and no assignment to
`endpointOption`); `success opt` is a `next()` call with `endpointOption`
assigned exactly once; `crashed` is an untyped runtime error thrown while
invoking an undefined builder (no structured error, no assignment). -/
inductive PipelineResult (Cfg Att : Type) where
  | handled (text : String)
  | success (opt : EndpointOption Cfg Att)
  | crashed
deriving DecidableEq, Repr

/-- JavaScript truthiness of an optional string (`undefined`, `null` and the
empty string are falsy). -/
def truthyStr (s : Option String) : Bool :=
  (s.getD "") != ""

/-- Whether the spec-enforcement block runs:
`req.app.locals.modelSpecs?.list && req.app.locals.modelSpecs?.enforce`
(an array, even empty, is truthy). -/
def specEnforcementActive (ms : Option ModelSpecsCfg) : Bool :=
  match ms with
  | some cfg => cfg.list.isSome && cfg.enforce
  | none => false

/-- The user-facing text of the tools policy error, built exactly as the
template literal in the source. -/
def toolsNotAllowedMsg : String :=
  "Only the \"" ++ EModelEndpoint.gptPlugins ++ "\" endpoint can have tools defined in the preset"

/-- The spec-enforcement block (source lines 37–73): checks the selected
spec and re-normalizes from the preset; `.error text` means `handleError`
was called with `text`. -/
def enforceSpec {Cfg Att : Type} (env : Env Cfg Att) (req : Req)
    (list : List ModelSpec) (parsedBody : ParsedConv) : Except String ParsedConv :=
  let spec := parsedBody.spec
  if !truthyStr spec then
    .error "No model spec selected"
  else
    match list.find? (fun s => s.name == spec.getD "") with
    | none => .error "Invalid model spec"
    | some currentModelSpec =>
      if req.body.endpoint != currentModelSpec.preset.endpoint then
        .error "Model spec mismatch"
      else if currentModelSpec.preset.endpoint != some EModelEndpoint.gptPlugins
          && currentModelSpec.preset.tools.isSome then
        .error toolsNotAllowedMsg
      else
        match env.parseCompactConvo
            ⟨req.body.endpoint, req.body.endpointType, currentModelSpec.preset⟩ with
        | .error _ => .error "Error parsing model spec"
        | .ok pb => .ok pb

/-- The dispatch key `endpointType ?? endpoint` (nullish coalescing). -/
def dispatchKey (req : Req) : Option String :=
  match req.body.endpointType with
  | some t => some t
  | none => req.body.endpoint

/-- Builder dispatch and option enrichment (source lines 75–89): look up the
builder, invoke it (binding the request for the agents family), await the
models catalog, and store the unawaited `processFiles` promise when the body
carries `files`. -/
def dispatchAndEnrich {Cfg Att : Type} (env : Env Cfg Att) (req : Req)
    (parsedBody : ParsedConv) : PipelineResult Cfg Att :=
  match (dispatchKey req).bind buildFunction with
  | none => .crashed
  | some endpointFn =>
    let call : BuilderCall :=
      { builderId := endpointFn
        reqBound := isAgentsEndpoint req.body.endpoint
        endpoint := req.body.endpoint
        conversation := parsedBody
        endpointType := req.body.endpointType }
    let modelsConfig := (env.getModelsConfig req).resolve
    let attachments : Option (Promise Att) :=
      match req.body.files with
      | some files => some (env.processFiles files)
      | none => none
    .success { builderCall := call, modelsConfig := modelsConfig, attachments := attachments }

/-- The whole middleware `buildEndpointOption(req, res, next)`. -/
def buildEndpointOption {Cfg Att : Type} (env : Env Cfg Att) (req : Req) :
    PipelineResult Cfg Att :=
  match env.parseCompactConvo ⟨req.body.endpoint, req.body.endpointType, req.body⟩ with
  | .error _ => .handled "Error parsing conversation"
  | .ok parsedBody =>
    match env.modelSpecs with
    | none => dispatchAndEnrich env req parsedBody
    | some cfg =>
      match cfg.list with
      | none => dispatchAndEnrich env req parsedBody
      | some list =>
        if cfg.enforce then
          match enforceSpec env req list parsedBody with
          | .error text => .handled text
          | .ok parsedBody2 => dispatchAndEnrich env req parsedBody2
        else
          dispatchAndEnrich env req parsedBody

/-- The value of `req.body.endpointOption` after a middleware run: assigned
exactly on the success path, absent otherwise. -/
def endpointOptionAfter {Cfg Att : Type} (env : Env Cfg Att) (req : Req) :
    Option (EndpointOption Cfg Att) :=
  match buildEndpointOption env req with
  | .success opt => some opt
  | _ => none

/-! Concrete fixtures used by the witness and counterexample theorems. -/

/-- A concrete parser for test runs: normalization keeps the payload's `spec`
and parameters. -/
def parseFields : ParseInput → Except String ParsedConv :=
  fun input => .ok { spec := input.conversation.spec, params := input.conversation.params }

/-- A concrete parser that fails exactly on payloads with no parameters. -/
def parseFieldsStrict : ParseInput → Except String ParsedConv :=
  fun input =>
    if input.conversation.params.isEmpty then .error "empty"
    else .ok { spec := input.conversation.spec, params := input.conversation.params }

/-- A catalog spec named `S` presetting `temperature` to `0.2` on `openAI`. -/
def specS : ModelSpec :=
  { name := "S"
    preset := { endpoint := some EModelEndpoint.openAI, params := [("temperature", "0.2")] } }

/-- An enforcing environment whose catalog holds exactly `specS`. -/
def envEnforce : Env Nat Nat :=
  { parseCompactConvo := parseFields
    getModelsConfig := fun _ => ⟨7⟩
    processFiles := fun files => ⟨files.length⟩
    modelSpecs := some { list := some [specS], enforce := true } }

/-- An environment with no catalog at all (enforcement disabled). -/
def envNoSpecs : Env Nat Nat :=
  { parseCompactConvo := parseFields
    getModelsConfig := fun _ => ⟨7⟩
    processFiles := fun files => ⟨files.length⟩
    modelSpecs := none }

/-- A client request selecting spec `S` on `openAI` with `temperature` 0.9. -/
def reqTemp : Req :=
  { body := { endpoint := some EModelEndpoint.openAI, spec := some "S"
              params := [("temperature", "0.9")] } }

/-- The endpoint option produced for `reqTemp` under `envEnforce`: the
conversation comes from re-normalizing `specS.preset`. -/
def optTemp : EndpointOption Nat Nat :=
  { builderCall :=
      { builderId := .openAI
        reqBound := false
        endpoint := some EModelEndpoint.openAI
        conversation := { spec := none, params := [("temperature", "0.2")] }
        endpointType := none }
    modelsConfig := 7
    attachments := none }

/-- The endpoint option produced for `reqTemp` under `envNoSpecs`: the
client conversation passes through verbatim. -/
def optTempNoEnforce : EndpointOption Nat Nat :=
  { builderCall :=
      { builderId := .openAI
        reqBound := false
        endpoint := some EModelEndpoint.openAI
        conversation := { spec := some "S", params := [("temperature", "0.9")] }
        endpointType := none }
    modelsConfig := 7
    attachments := none }

/-- A request carrying an empty (but present, hence truthy) `files` array. -/
def reqEmptyFiles : Req :=
  { body := { endpoint := some EModelEndpoint.openAI, files := some [] } }

/-- A request carrying one file. -/
def reqOneFile : Req :=
  { body := { endpoint := some EModelEndpoint.openAI, files := some ["a"] } }

/-- The endpoint option produced for `reqOneFile` under `envNoSpecs`. -/
def optOneFile : EndpointOption Nat Nat :=
  { builderCall :=
      { builderId := .openAI
        reqBound := false
        endpoint := some EModelEndpoint.openAI
        conversation := { spec := none, params := [] }
        endpointType := none }
    modelsConfig := 7
    attachments := some ⟨1⟩ }

/-- A request selecting `S` through the anthropic route while `specS.preset`
is configured for `openAI`. -/
def reqMismatch : Req :=
  { body := { endpoint := some EModelEndpoint.anthropic, spec := some "S" } }

/-- A catalog spec whose preset declares `tools` on the anthropic endpoint
(a policy violation: anthropic is not the tool-using provider). -/
def specT : ModelSpec :=
  { name := "T"
    preset := { endpoint := some EModelEndpoint.anthropic, tools := some ["calc"] } }

/-- An enforcing environment whose catalog holds exactly `specT`. -/
def envEnforceTools : Env Nat Nat :=
  { parseCompactConvo := parseFields
    getModelsConfig := fun _ => ⟨7⟩
    processFiles := fun files => ⟨files.length⟩
    modelSpecs := some { list := some [specT], enforce := true } }

/-- A request selecting `T` through the `openAI` route: the endpoint-match
check fires before the tools check. -/
def reqToolsMismatch : Req :=
  { body := { endpoint := some EModelEndpoint.openAI, spec := some "T" } }

/-- A request selecting `T` through the anthropic route: the endpoint-match
check passes and the tools check fires. -/
def reqToolsMatch : Req :=
  { body := { endpoint := some EModelEndpoint.anthropic, spec := some "T" } }

/-- A request on the Azure variant of the base OpenAI provider. -/
def reqAzure : Req :=
  { body := { endpoint := some EModelEndpoint.azureOpenAI } }

/-- The endpoint option produced for `reqAzure` under `envNoSpecs`: the
shared `openAI` builder is selected. -/
def optAzure : EndpointOption Nat Nat :=
  { builderCall :=
      { builderId := .openAI
        reqBound := false
        endpoint := some EModelEndpoint.azureOpenAI
        conversation := { spec := none, params := [] }
        endpointType := none }
    modelsConfig := 7
    attachments := none }

/-- An environment with no catalog and the strict parser. -/
def envStrictNoSpecs : Env Nat Nat :=
  { parseCompactConvo := parseFieldsStrict
    getModelsConfig := fun _ => ⟨7⟩
    processFiles := fun files => ⟨files.length⟩
    modelSpecs := none }

/-- A request whose payload the strict parser rejects (no parameters). -/
def reqNoParams : Req :=
  { body := { endpoint := some EModelEndpoint.openAI } }

/-- A catalog spec whose preset carries no parameters, so the strict parser
rejects it: an administrator configuration bug. -/
def specEmptyPreset : ModelSpec :=
  { name := "E", preset := { endpoint := some EModelEndpoint.openAI } }

/-- An enforcing environment with the strict parser and catalog `[specEmptyPreset]`. -/
def envStrictEnforce : Env Nat Nat :=
  { parseCompactConvo := parseFieldsStrict
    getModelsConfig := fun _ => ⟨7⟩
    processFiles := fun files => ⟨files.length⟩
    modelSpecs := some { list := some [specEmptyPreset], enforce := true } }

/-- A client request selecting `E`, parsable by the strict parser. -/
def reqE : Req :=
  { body := { endpoint := some EModelEndpoint.openAI, spec := some "E"
              params := [("temperature", "0.9")] } }

/-- A request naming a provider with no entry in the dispatch table. -/
def reqUnknown : Req :=
  { body := { endpoint := some "doesNotExist" } }

/-- A request whose `endpointType` is the agents identifier but whose
`endpoint` is not. -/
def reqAgentsType : Req :=
  { body := { endpoint := some EModelEndpoint.openAI
              endpointType := some EModelEndpoint.agents } }

/-- The endpoint option produced for `reqAgentsType` under `envNoSpecs`:
the agents builder is selected, yet the request is not bound. -/
def optAgentsType : EndpointOption Nat Nat :=
  { builderCall :=
      { builderId := .agents
        reqBound := false
        endpoint := some EModelEndpoint.openAI
        conversation := { spec := none, params := [] }
        endpointType := some EModelEndpoint.agents }
    modelsConfig := 7
    attachments := none }

/-! Helper lemmas about the pipeline. -/

theorem truthyStr_iff {s : Option String} :
    truthyStr s = true ↔ ∃ t, s = some t ∧ t ≠ "" := by
  cases s with
  | none => simp [truthyStr]
  | some t => simp [truthyStr, bne_iff_ne]

theorem dispatchAndEnrich_ne_handled {Cfg Att : Type} (env : Env Cfg Att) (req : Req)
    (pb : ParsedConv) (t : String) : dispatchAndEnrich env req pb ≠ .handled t := by
  unfold dispatchAndEnrich
  cases h : (dispatchKey req).bind buildFunction <;> simp

theorem dispatchAndEnrich_success_inv {Cfg Att : Type} {env : Env Cfg Att} {req : Req}
    {pb : ParsedConv} {opt : EndpointOption Cfg Att}
    (h : dispatchAndEnrich env req pb = .success opt) :
    ∃ bid, (dispatchKey req).bind buildFunction = some bid ∧
      opt = { builderCall := { builderId := bid
                               reqBound := isAgentsEndpoint req.body.endpoint
                               endpoint := req.body.endpoint
                               conversation := pb
                               endpointType := req.body.endpointType }
              modelsConfig := (env.getModelsConfig req).resolve
              attachments := Option.map env.processFiles req.body.files } := by
  unfold dispatchAndEnrich at h
  cases hk : (dispatchKey req).bind buildFunction with
  | none => rw [hk] at h; exact absurd h (by simp)
  | some bid =>
    rw [hk] at h
    simp only [PipelineResult.success.injEq] at h
    refine ⟨bid, rfl, ?_⟩
    cases hf : req.body.files <;> rw [hf] at h <;> simp [← h, Option.map, hf]

theorem enforceSpec_ok_inv {Cfg Att : Type} {env : Env Cfg Att} {req : Req}
    {list : List ModelSpec} {pb final : ParsedConv}
    (h : enforceSpec env req list pb = .ok final) :
    ∃ s cms, pb.spec = some s ∧ s ≠ "" ∧
      list.find? (fun m => m.name == s) = some cms ∧
      req.body.endpoint = cms.preset.endpoint ∧
      (cms.preset.endpoint != some EModelEndpoint.gptPlugins
        && cms.preset.tools.isSome) = false ∧
      env.parseCompactConvo ⟨req.body.endpoint, req.body.endpointType, cms.preset⟩
        = .ok final := by
  simp only [enforceSpec] at h
  split at h
  · exact absurd h (by simp)
  next ht =>
  have ht2 : truthyStr pb.spec = true := by simpa using ht
  obtain ⟨s, hs, hne⟩ := truthyStr_iff.mp ht2
  rw [hs] at h
  simp only [Option.getD_some] at h
  split at h
  · exact absurd h (by simp)
  next cms hfind =>
  split at h
  · exact absurd h (by simp)
  next hmm =>
  simp only [bne_iff_ne, ne_eq, Decidable.not_not] at hmm
  split at h
  · exact absurd h (by simp)
  next htool =>
  simp only [Bool.not_eq_true] at htool
  refine ⟨s, cms, hs, hne, hfind, hmm, htool, ?_⟩
  split at h
  · exact absurd h (by simp)
  next pb2 hp =>
  simp only [Except.ok.injEq] at h
  rw [← h]
  exact hp

theorem enforceSpec_error_inv {Cfg Att : Type} {env : Env Cfg Att} {req : Req}
    {list : List ModelSpec} {pb : ParsedConv} {t : String}
    (h : enforceSpec env req list pb = .error t) :
    t = "No model spec selected" ∨ t = "Invalid model spec" ∨ t = "Model spec mismatch" ∨
      t = toolsNotAllowedMsg ∨ t = "Error parsing model spec" := by
  simp only [enforceSpec] at h
  split at h
  · simp only [Except.error.injEq] at h
    exact Or.inl h.symm
  split at h
  · simp only [Except.error.injEq] at h
    exact Or.inr (Or.inl h.symm)
  split at h
  · simp only [Except.error.injEq] at h
    exact Or.inr (Or.inr (Or.inl h.symm))
  split at h
  · simp only [Except.error.injEq] at h
    exact Or.inr (Or.inr (Or.inr (Or.inl h.symm)))
  split at h
  · simp only [Except.error.injEq] at h
    exact Or.inr (Or.inr (Or.inr (Or.inr h.symm)))
  · exact absurd h (by simp)

theorem run_not_enforced {Cfg Att : Type} {env : Env Cfg Att} (req : Req)
    (hoff : specEnforcementActive env.modelSpecs = false) :
    buildEndpointOption env req =
      match env.parseCompactConvo ⟨req.body.endpoint, req.body.endpointType, req.body⟩ with
      | .error _ => .handled "Error parsing conversation"
      | .ok pb => dispatchAndEnrich env req pb := by
  cases hp : env.parseCompactConvo ⟨req.body.endpoint, req.body.endpointType, req.body⟩ with
  | error e => simp [buildEndpointOption, hp]
  | ok pb =>
    cases hms : env.modelSpecs with
    | none => simp [buildEndpointOption, hp, hms]
    | some cfg =>
      cases hl : cfg.list with
      | none => simp [buildEndpointOption, hp, hms, hl]
      | some list =>
        have he : cfg.enforce = false := by
          simpa [specEnforcementActive, hms, hl] using hoff
        simp [buildEndpointOption, hp, hms, hl, he]

theorem run_enforced {Cfg Att : Type} {env : Env Cfg Att} (req : Req)
    {cfg : ModelSpecsCfg} {list : List ModelSpec}
    (hms : env.modelSpecs = some cfg) (hl : cfg.list = some list)
    (he : cfg.enforce = true) :
    buildEndpointOption env req =
      match env.parseCompactConvo ⟨req.body.endpoint, req.body.endpointType, req.body⟩ with
      | .error _ => .handled "Error parsing conversation"
      | .ok pb =>
        match enforceSpec env req list pb with
        | .error text => .handled text
        | .ok pb2 => dispatchAndEnrich env req pb2 := by
  cases hp : env.parseCompactConvo ⟨req.body.endpoint, req.body.endpointType, req.body⟩ with
  | error e => simp [buildEndpointOption, hp]
  | ok pb => simp [buildEndpointOption, hp, hms, hl, he]

theorem success_inv {Cfg Att : Type} {env : Env Cfg Att} {req : Req}
    {opt : EndpointOption Cfg Att}
    (h : buildEndpointOption env req = .success opt) :
    ∃ pb final,
      env.parseCompactConvo ⟨req.body.endpoint, req.body.endpointType, req.body⟩ = .ok pb ∧
      ((specEnforcementActive env.modelSpecs = false ∧ final = pb) ∨
        (specEnforcementActive env.modelSpecs = true ∧
          ∃ cfg list s cms,
            env.modelSpecs = some cfg ∧ cfg.list = some list ∧
            pb.spec = some s ∧ s ≠ "" ∧
            list.find? (fun m => m.name == s) = some cms ∧
            req.body.endpoint = cms.preset.endpoint ∧
            (cms.preset.endpoint != some EModelEndpoint.gptPlugins
              && cms.preset.tools.isSome) = false ∧
            env.parseCompactConvo ⟨req.body.endpoint, req.body.endpointType, cms.preset⟩
              = .ok final)) ∧
      dispatchAndEnrich env req final = .success opt := by
  cases hp : env.parseCompactConvo ⟨req.body.endpoint, req.body.endpointType, req.body⟩ with
  | error e => simp [buildEndpointOption, hp] at h
  | ok pb =>
    cases hms : env.modelSpecs with
    | none =>
      simp only [buildEndpointOption, hp, hms] at h
      exact ⟨pb, pb, rfl, Or.inl ⟨by simp [specEnforcementActive], rfl⟩, h⟩
    | some cfg =>
      cases hl : cfg.list with
      | none =>
        simp only [buildEndpointOption, hp, hms, hl] at h
        exact ⟨pb, pb, rfl, Or.inl ⟨by simp [specEnforcementActive, hl], rfl⟩, h⟩
      | some list =>
        cases he : cfg.enforce with
        | false =>
          simp only [buildEndpointOption, hp, hms, hl, he, Bool.false_eq_true,
            if_false] at h
          exact ⟨pb, pb, rfl, Or.inl ⟨by simp [specEnforcementActive, hl, he], rfl⟩, h⟩
        | true =>
          simp only [buildEndpointOption, hp, hms, hl, he, if_true] at h
          cases hes : enforceSpec env req list pb with
          | error t => simp [hes] at h
          | ok pb2 =>
            rw [hes] at h
            simp only [] at h
            obtain ⟨s, cms, hs, hne, hfind, hmm, htool, hpp⟩ := enforceSpec_ok_inv hes
            exact ⟨pb, pb2, rfl,
              Or.inr ⟨by simp [specEnforcementActive, hl, he],
                cfg, list, s, cms, rfl, hl, hs, hne, hfind, hmm, htool, hpp⟩, h⟩

theorem handled_inv {Cfg Att : Type} {env : Env Cfg Att} {req : Req} {t : String}
    (h : buildEndpointOption env req = .handled t) :
    t = "Error parsing conversation" ∨ t = "No model spec selected" ∨
      t = "Invalid model spec" ∨ t = "Model spec mismatch" ∨
      t = toolsNotAllowedMsg ∨ t = "Error parsing model spec" := by
  cases hp : env.parseCompactConvo ⟨req.body.endpoint, req.body.endpointType, req.body⟩ with
  | error e =>
    simp only [buildEndpointOption, hp, PipelineResult.handled.injEq] at h
    exact Or.inl h.symm
  | ok pb =>
    cases hms : env.modelSpecs with
    | none =>
      simp only [buildEndpointOption, hp, hms] at h
      exact absurd h (dispatchAndEnrich_ne_handled env req pb t)
    | some cfg =>
      cases hl : cfg.list with
      | none =>
        simp only [buildEndpointOption, hp, hms, hl] at h
        exact absurd h (dispatchAndEnrich_ne_handled env req pb t)
      | some list =>
        cases he : cfg.enforce with
        | false =>
          simp only [buildEndpointOption, hp, hms, hl, he, Bool.false_eq_true,
            if_false] at h
          exact absurd h (dispatchAndEnrich_ne_handled env req pb t)
        | true =>
          simp only [buildEndpointOption, hp, hms, hl, he, if_true] at h
          cases hes : enforceSpec env req list pb with
          | error t2 =>
            rw [hes] at h
            simp only [PipelineResult.handled.injEq] at h
            rw [← h]
            exact Or.inr (enforceSpec_error_inv hes)
          | ok pb2 =>
            rw [hes] at h
            simp only [] at h
            exact absurd h (dispatchAndEnrich_ne_handled env req pb2 t)

theorem run_enforced_error {Cfg Att : Type} {env : Env Cfg Att} (req : Req)
    {cfg : ModelSpecsCfg} {list : List ModelSpec} {pb : ParsedConv} {t : String}
    (hms : env.modelSpecs = some cfg) (hl : cfg.list = some list)
    (he : cfg.enforce = true)
    (hp : env.parseCompactConvo ⟨req.body.endpoint, req.body.endpointType, req.body⟩ = .ok pb)
    (hes : enforceSpec env req list pb = .error t) :
    buildEndpointOption env req = .handled t := by
  rw [run_enforced req hms hl he]
  simp only [hp, hes]

/-! Theorems settling the claims. -/

/-- Claim C1: whenever spec enforcement is active and every enforcement check
passes (the run succeeds), the conversation handed to the selected builder is
the re-normalization of the matched spec's preset, not the client payload:
the client-supplied conversation parameters are discarded. -/
theorem claim_c1_preset_authoritative {Cfg Att : Type} (env : Env Cfg Att) (req : Req)
    (opt : EndpointOption Cfg Att)
    (hact : specEnforcementActive env.modelSpecs = true)
    (hrun : buildEndpointOption env req = .success opt) :
    ∃ pb cfg list cms,
      env.modelSpecs = some cfg ∧ cfg.list = some list ∧
      env.parseCompactConvo ⟨req.body.endpoint, req.body.endpointType, req.body⟩ = .ok pb ∧
      list.find? (fun m => m.name == pb.spec.getD "") = some cms ∧
      env.parseCompactConvo ⟨req.body.endpoint, req.body.endpointType, cms.preset⟩
        = .ok opt.builderCall.conversation := by
  obtain ⟨pb, final, hp, hpath, hd⟩ := success_inv hrun
  obtain ⟨bid, hkey, hopt⟩ := dispatchAndEnrich_success_inv hd
  cases hpath with
  | inl hoff => rw [hoff.1] at hact; exact absurd hact (by simp)
  | inr hpath =>
    obtain ⟨-, cfg, list, s, cms, hms, hl, hs, hne, hfind, hmm, htool, hpp⟩ := hpath
    refine ⟨pb, cfg, list, cms, hms, hl, hp, ?_, ?_⟩
    · rw [hs]
      simpa using hfind
    · rw [hopt]
      exact hpp

/-- Witness for C1: under the enforcing `envEnforce`, the client sends
`temperature` 0.9 but the builder receives the preset's 0.2. -/
theorem claim_c1_witness :
    specEnforcementActive envEnforce.modelSpecs = true ∧
    buildEndpointOption envEnforce reqTemp = .success optTemp ∧
    optTemp.builderCall.conversation.params = [("temperature", "0.2")] ∧
    (∃ pb cfg list cms,
      envEnforce.modelSpecs = some cfg ∧ cfg.list = some list ∧
      envEnforce.parseCompactConvo
        ⟨reqTemp.body.endpoint, reqTemp.body.endpointType, reqTemp.body⟩ = .ok pb ∧
      list.find? (fun m => m.name == pb.spec.getD "") = some cms ∧
      envEnforce.parseCompactConvo
        ⟨reqTemp.body.endpoint, reqTemp.body.endpointType, cms.preset⟩
        = .ok optTemp.builderCall.conversation) :=
  ⟨by decide, by decide, by decide,
    claim_c1_preset_authoritative envEnforce reqTemp optTemp (by decide) (by decide)⟩

/-- Counterexample to C2 as stated: a successful run whose request carries an
empty-but-present `files` array (an empty file list) still stores an
`attachments` handle, because the source only tests the truthiness of
`req.body.files`, not its length. -/
theorem claim_c2_counterexample :
    reqEmptyFiles.body.files = some [] ∧
    buildEndpointOption envNoSpecs reqEmptyFiles =
      .success
        { builderCall :=
            { builderId := .openAI
              reqBound := false
              endpoint := some EModelEndpoint.openAI
              conversation := { spec := none, params := [] }
              endpointType := none }
          modelsConfig := 7
          attachments := some ⟨0⟩ } := by decide

/-- Claim C2 (amended): after a successful run, `attachments` is present iff
the request carries a `files` field (even an empty list, which is truthy in
the source), and when present it holds the unawaited promise returned by
`processFiles` — the pipeline never awaits it. -/
theorem claim_c2_amended {Cfg Att : Type} (env : Env Cfg Att) (req : Req)
    (opt : EndpointOption Cfg Att)
    (hrun : buildEndpointOption env req = .success opt) :
    (opt.attachments.isSome ↔ req.body.files.isSome) ∧
    ∀ fs, req.body.files = some fs → opt.attachments = some (env.processFiles fs) := by
  obtain ⟨pb, final, hp, hpath, hd⟩ := success_inv hrun
  obtain ⟨bid, hkey, hopt⟩ := dispatchAndEnrich_success_inv hd
  subst hopt
  constructor
  · cases hf : req.body.files <;> simp [hf]
  · intro fs hfs
    simp [hfs]

/-- Witness for C2 (amended) at a request with one file. -/
theorem claim_c2_witness :
    buildEndpointOption envNoSpecs reqOneFile = .success optOneFile ∧
    (optOneFile.attachments.isSome ↔ reqOneFile.body.files.isSome) ∧
    optOneFile.attachments = some (envNoSpecs.processFiles ["a"]) := by
  have h : buildEndpointOption envNoSpecs reqOneFile = .success optOneFile := by decide
  obtain ⟨h1, h2⟩ := claim_c2_amended envNoSpecs reqOneFile optOneFile h
  exact ⟨h, h1, h2 ["a"] rfl⟩

/-- Claim C3: every run ends in exactly one of three ways — success with
`endpointOption` assigned exactly once; a structured error from one of the
six failure paths with no assignment; or an untyped crash with no
assignment.  A partially populated `endpointOption` is never observable. -/
theorem claim_c3_no_partial_option {Cfg Att : Type} (env : Env Cfg Att) (req : Req) :
    (∃ opt, buildEndpointOption env req = .success opt ∧
      endpointOptionAfter env req = some opt) ∨
    (∃ t, buildEndpointOption env req = .handled t ∧
      endpointOptionAfter env req = none ∧
      (t = "Error parsing conversation" ∨ t = "No model spec selected" ∨
        t = "Invalid model spec" ∨ t = "Model spec mismatch" ∨
        t = toolsNotAllowedMsg ∨ t = "Error parsing model spec")) ∨
    (buildEndpointOption env req = .crashed ∧ endpointOptionAfter env req = none) := by
  cases hr : buildEndpointOption env req with
  | handled t =>
    exact Or.inr (Or.inl ⟨t, rfl, by simp [endpointOptionAfter, hr], handled_inv hr⟩)
  | success opt =>
    exact Or.inl ⟨opt, rfl, by simp [endpointOptionAfter, hr]⟩
  | crashed =>
    exact Or.inr (Or.inr ⟨rfl, by simp [endpointOptionAfter, hr]⟩)

/-- Claim C4: the spec enforcer runs iff the process-wide catalog is present
and its enforce flag is set.  When it is not active, the client-parsed
conversation is used verbatim for building — regardless of any `spec` field
in the payload — and the only structured error this stage can emit is the
client parse error. -/
theorem claim_c4_enforcement_gate {Cfg Att : Type} (env : Env Cfg Att) (req : Req)
    (hoff : specEnforcementActive env.modelSpecs = false) :
    (∀ pb opt,
      env.parseCompactConvo ⟨req.body.endpoint, req.body.endpointType, req.body⟩ = .ok pb →
      buildEndpointOption env req = .success opt →
      opt.builderCall.conversation = pb) ∧
    (∀ t, buildEndpointOption env req = .handled t → t = "Error parsing conversation") := by
  constructor
  · intro pb opt hp hrun
    obtain ⟨pb2, final, hp2, hpath, hd⟩ := success_inv hrun
    obtain ⟨bid, hkey, hopt⟩ := dispatchAndEnrich_success_inv hd
    cases hpath with
    | inl hcase =>
      have hpb : pb2 = pb := by
        have := hp2.symm.trans hp
        injection this
      rw [hopt]
      simp [hcase.2, hpb]
    | inr hcase => rw [hoff] at hcase; exact absurd hcase.1 (by simp)
  · intro t ht
    rw [run_not_enforced req hoff] at ht
    cases hp : env.parseCompactConvo ⟨req.body.endpoint, req.body.endpointType, req.body⟩ with
    | error e =>
      rw [hp] at ht
      simp only [PipelineResult.handled.injEq] at ht
      exact ht.symm
    | ok pb =>
      rw [hp] at ht
      simp only [] at ht
      exact absurd ht (dispatchAndEnrich_ne_handled env req pb t)

/-- Witness for C4: with no catalog, the client conversation — `spec` field
and `temperature` 0.9 included — reaches the builder verbatim. -/
theorem claim_c4_witness :
    specEnforcementActive envNoSpecs.modelSpecs = false ∧
    buildEndpointOption envNoSpecs reqTemp = .success optTempNoEnforce ∧
    optTempNoEnforce.builderCall.conversation =
      { spec := some "S", params := [("temperature", "0.9")] } := by
  have h : buildEndpointOption envNoSpecs reqTemp = .success optTempNoEnforce := by decide
  refine ⟨by decide, h, ?_⟩
  exact (claim_c4_enforcement_gate envNoSpecs reqTemp (by decide)).1
    { spec := some "S", params := [("temperature", "0.9")] } optTempNoEnforce rfl h

/-- Claim C5: under active enforcement, when the parsed payload selects a
catalog entry whose preset is configured for a different endpoint than the
request's, the run terminates with the "Model spec mismatch" error — no
builder is invoked. -/
theorem claim_c5_spec_mismatch {Cfg Att : Type} (env : Env Cfg Att) (req : Req)
    {cfg : ModelSpecsCfg} {list : List ModelSpec} {pb : ParsedConv} {s : String}
    {cms : ModelSpec}
    (hms : env.modelSpecs = some cfg) (hl : cfg.list = some list)
    (he : cfg.enforce = true)
    (hp : env.parseCompactConvo ⟨req.body.endpoint, req.body.endpointType, req.body⟩ = .ok pb)
    (hs : pb.spec = some s) (hne : s ≠ "")
    (hfind : list.find? (fun m => m.name == s) = some cms)
    (hmm : req.body.endpoint ≠ cms.preset.endpoint) :
    buildEndpointOption env req = .handled "Model spec mismatch" := by
  refine run_enforced_error req hms hl he hp ?_
  have ht : truthyStr (some s) = true := truthyStr_iff.mpr ⟨s, rfl, hne⟩
  simp [enforceSpec, hs, ht, hfind, hmm, bne_iff_ne]

/-- Witness for C5: selecting `S` (preset endpoint `openAI`) through the
anthropic route fails with the mismatch error. -/
theorem claim_c5_witness :
    reqMismatch.body.endpoint ≠ specS.preset.endpoint ∧
    buildEndpointOption envEnforce reqMismatch = .handled "Model spec mismatch" :=
  ⟨by decide,
    claim_c5_spec_mismatch envEnforce reqMismatch rfl rfl rfl rfl rfl (by decide) rfl
      (by decide)⟩

/-- Counterexample to C6 as stated: a request under active enforcement whose
matched spec's preset declares `tools` on a non-`gptPlugins` endpoint does
NOT always terminate with the tools-policy error — when the request's
endpoint differs from the preset's, the endpoint-match check fires first and
the run terminates with "Model spec mismatch" instead. -/
theorem claim_c6_counterexample :
    specEnforcementActive envEnforceTools.modelSpecs = true ∧
    [specT].find? (fun m => m.name == "T") = some specT ∧
    specT.preset.tools.isSome = true ∧
    specT.preset.endpoint ≠ some EModelEndpoint.gptPlugins ∧
    buildEndpointOption envEnforceTools reqToolsMismatch = .handled "Model spec mismatch" ∧
    buildEndpointOption envEnforceTools reqToolsMismatch ≠ .handled toolsNotAllowedMsg := by
  decide

/-- Claim C6 (amended): under active enforcement, when the matched spec's
preset declares `tools`, its endpoint is not `gptPlugins`, and the request's
endpoint equals the preset's endpoint (so the earlier endpoint-match check
passes), the run terminates with the `ToolsNotAllowedForEndpoint` error,
whose message names the tool-using provider — no builder is invoked. -/
theorem claim_c6_amended {Cfg Att : Type} (env : Env Cfg Att) (req : Req)
    {cfg : ModelSpecsCfg} {list : List ModelSpec} {pb : ParsedConv} {s : String}
    {cms : ModelSpec}
    (hms : env.modelSpecs = some cfg) (hl : cfg.list = some list)
    (he : cfg.enforce = true)
    (hp : env.parseCompactConvo ⟨req.body.endpoint, req.body.endpointType, req.body⟩ = .ok pb)
    (hs : pb.spec = some s) (hne : s ≠ "")
    (hfind : list.find? (fun m => m.name == s) = some cms)
    (heq : req.body.endpoint = cms.preset.endpoint)
    (htools : cms.preset.tools.isSome = true)
    (hnot : cms.preset.endpoint ≠ some EModelEndpoint.gptPlugins) :
    buildEndpointOption env req =
      .handled ("Only the \"" ++ EModelEndpoint.gptPlugins
        ++ "\" endpoint can have tools defined in the preset") := by
  refine run_enforced_error req hms hl he hp ?_
  have ht : truthyStr (some s) = true := truthyStr_iff.mpr ⟨s, rfl, hne⟩
  simp [enforceSpec, hs, ht, hfind, heq, htools, hnot, bne_iff_ne, toolsNotAllowedMsg]

/-- Witness for C6 (amended): selecting `T` (anthropic preset with tools)
through the anthropic route fails with the tools-policy error, whose text
names `gptPlugins`. -/
theorem claim_c6_witness :
    specT.preset.tools.isSome = true ∧
    specT.preset.endpoint ≠ some EModelEndpoint.gptPlugins ∧
    buildEndpointOption envEnforceTools reqToolsMatch =
      .handled ("Only the \"" ++ EModelEndpoint.gptPlugins
        ++ "\" endpoint can have tools defined in the preset") :=
  ⟨by decide, by decide,
    claim_c6_amended envEnforceTools reqToolsMatch rfl rfl rfl rfl rfl (by decide) rfl
      rfl (by decide) (by decide)⟩

/-- Claim C7: on every successful run, the invoked builder is the one the
static table maps to the dispatch identifier (`endpointType` falling back to
`endpoint`), the builder receives the request's endpoint, endpoint type and
the normalized conversation unchanged (it is exactly a parser output), and
the Azure variant maps to the same builder function as the base OpenAI
provider. -/
theorem claim_c7_dispatch {Cfg Att : Type} (env : Env Cfg Att) (req : Req)
    (opt : EndpointOption Cfg Att)
    (hrun : buildEndpointOption env req = .success opt) :
    (dispatchKey req).bind buildFunction = some opt.builderCall.builderId ∧
    opt.builderCall.endpoint = req.body.endpoint ∧
    opt.builderCall.endpointType = req.body.endpointType ∧
    (env.parseCompactConvo ⟨req.body.endpoint, req.body.endpointType, req.body⟩
        = .ok opt.builderCall.conversation ∨
      ∃ cms : ModelSpec,
        env.parseCompactConvo ⟨req.body.endpoint, req.body.endpointType, cms.preset⟩
          = .ok opt.builderCall.conversation) ∧
    buildFunction EModelEndpoint.azureOpenAI = buildFunction EModelEndpoint.openAI := by
  obtain ⟨pb, final, hp, hpath, hd⟩ := success_inv hrun
  obtain ⟨bid, hkey, hopt⟩ := dispatchAndEnrich_success_inv hd
  subst hopt
  refine ⟨by simpa using hkey, rfl, rfl, ?_, by decide⟩
  cases hpath with
  | inl hcase =>
    left
    simpa [hcase.2] using hp
  | inr hcase =>
    obtain ⟨-, cfg, list, s, cms, hms, hl, hs, hne, hfind, hmm, htool, hpp⟩ := hcase
    right
    exact ⟨cms, hpp⟩

/-- Witness for C7: an azureOpenAI request dispatches to the shared openAI
builder with the parsed conversation unchanged. -/
theorem claim_c7_witness :
    buildEndpointOption envNoSpecs reqAzure = .success optAzure ∧
    (dispatchKey reqAzure).bind buildFunction = some optAzure.builderCall.builderId ∧
    buildFunction EModelEndpoint.azureOpenAI = buildFunction EModelEndpoint.openAI := by
  have h : buildEndpointOption envNoSpecs reqAzure = .success optAzure := by decide
  obtain ⟨h1, h2, h3, h4, h5⟩ := claim_c7_dispatch envNoSpecs reqAzure optAzure h
  exact ⟨h, h1, h5⟩

/-- Claim C8 (amended): both normalization calls go through the single
external parser `env.parseCompactConvo`; a client-payload parse failure is
terminal with the message "Error parsing conversation" while a preset parse
failure (all policy checks having passed) is terminal with the distinct
message "Error parsing model spec". -/
theorem claim_c8_amended {Cfg Att : Type} (env : Env Cfg Att) (req : Req)
    {cfg : ModelSpecsCfg} {list : List ModelSpec} {pb : ParsedConv} {s : String}
    {cms : ModelSpec} {e2 : String}
    (hms : env.modelSpecs = some cfg) (hl : cfg.list = some list)
    (he : cfg.enforce = true)
    (hp : env.parseCompactConvo ⟨req.body.endpoint, req.body.endpointType, req.body⟩ = .ok pb)
    (hs : pb.spec = some s) (hne : s ≠ "")
    (hfind : list.find? (fun m => m.name == s) = some cms)
    (heq : req.body.endpoint = cms.preset.endpoint)
    (htool : (cms.preset.endpoint != some EModelEndpoint.gptPlugins
      && cms.preset.tools.isSome) = false)
    (hpfail : env.parseCompactConvo ⟨req.body.endpoint, req.body.endpointType, cms.preset⟩
      = .error e2) :
    buildEndpointOption env req = .handled "Error parsing model spec" ∧
    (∀ (req2 : Req) (e : String),
      env.parseCompactConvo ⟨req2.body.endpoint, req2.body.endpointType, req2.body⟩
        = .error e →
      buildEndpointOption env req2 = .handled "Error parsing conversation") ∧
    "Error parsing conversation" ≠ "Error parsing model spec" := by
  refine ⟨?_, ?_, by decide⟩
  · refine run_enforced_error req hms hl he hp ?_
    have ht : truthyStr (some s) = true := truthyStr_iff.mpr ⟨s, rfl, hne⟩
    have hbne : (req.body.endpoint != cms.preset.endpoint) = false := by simp [heq]
    simp [enforceSpec, hs, ht, hfind, hbne, htool, hpfail]
  · intro req2 e hperr
    simp [buildEndpointOption, hperr]

/-- Witness for C8 (amended): under `envStrictEnforce` the client payload of
`reqE` parses but the preset of `E` does not, yielding the preset-specific
message; the same environment reports the client-specific message on
`reqNoParams`. -/
theorem claim_c8_witness :
    buildEndpointOption envStrictEnforce reqE = .handled "Error parsing model spec" ∧
    buildEndpointOption envStrictEnforce reqNoParams = .handled "Error parsing conversation" := by
  obtain ⟨h1, h2, h3⟩ := claim_c8_amended envStrictEnforce reqE rfl rfl rfl rfl rfl
    (by decide) rfl rfl (by decide) rfl
  exact ⟨h1, h2 reqNoParams "empty" rfl⟩

/-- Counterexample to C8 as stated: the middleware's user-facing parse-error
texts are capitalized "Error parsing conversation" / "Error parsing model
spec", not the lowercase strings the claim quotes. -/
theorem claim_c8_counterexample :
    buildEndpointOption envStrictNoSpecs reqNoParams = .handled "Error parsing conversation" ∧
    buildEndpointOption envStrictNoSpecs reqNoParams ≠ .handled "error parsing conversation" ∧
    "Error parsing conversation" ≠ "error parsing conversation" ∧
    "Error parsing model spec" ≠ "error parsing model spec" := by decide

/-- Claim C9: when the dispatch identifier has no entry in the static table,
the run can never succeed, and if no structured error was written by an
earlier stage the run ends in the untyped `crashed` outcome (the undefined
builder invocation throws); the crash carries no user-facing error text. -/
theorem claim_c9_unknown_key {Cfg Att : Type} (env : Env Cfg Att) (req : Req)
    (hkey : (dispatchKey req).bind buildFunction = none) :
    (∀ opt, buildEndpointOption env req ≠ .success opt) ∧
    ((∀ t, buildEndpointOption env req ≠ .handled t) →
      buildEndpointOption env req = .crashed) := by
  have hns : ∀ opt, buildEndpointOption env req ≠ .success opt := by
    intro opt hrun
    obtain ⟨pb, final, hp, hpath, hd⟩ := success_inv hrun
    obtain ⟨bid, hkey2, hopt⟩ := dispatchAndEnrich_success_inv hd
    rw [hkey] at hkey2
    exact Option.noConfusion hkey2
  refine ⟨hns, ?_⟩
  intro hnh
  cases hr : buildEndpointOption env req with
  | handled t => exact absurd hr (hnh t)
  | success opt => exact absurd hr (hns opt)
  | crashed => rfl

/-- Witness for C9: a request for an unknown provider crashes the dispatch
stage without a structured error. -/
theorem claim_c9_witness :
    (dispatchKey reqUnknown).bind buildFunction = none ∧
    buildEndpointOption envNoSpecs reqUnknown = .crashed := by
  have hkey : (dispatchKey reqUnknown).bind buildFunction = none := by decide
  have hc : buildEndpointOption envNoSpecs reqUnknown = .crashed := by decide
  refine ⟨hkey, (claim_c9_unknown_key envNoSpecs reqUnknown hkey).2 ?_⟩
  intro t ht
  rw [hc] at ht
  exact PipelineResult.noConfusion ht

/-- Claim C10: on every successful run the request-binding wrapper is applied
exactly when the request's `endpoint` is the agents identifier, independent
of `endpointType`; builder selection prefers `endpointType`, so a request
whose `endpointType` is the agents identifier but whose `endpoint` is not
selects the agents builder yet is invoked without the request bound. -/
theorem claim_c10_agents_binding {Cfg Att : Type} (env : Env Cfg Att) (req : Req)
    (opt : EndpointOption Cfg Att)
    (hrun : buildEndpointOption env req = .success opt) :
    opt.builderCall.reqBound = isAgentsEndpoint req.body.endpoint ∧
    (req.body.endpointType = some EModelEndpoint.agents →
      opt.builderCall.builderId = .agents) ∧
    (req.body.endpointType = some EModelEndpoint.agents →
      req.body.endpoint ≠ some EModelEndpoint.agents →
      opt.builderCall.reqBound = false) := by
  obtain ⟨pb, final, hp, hpath, hd⟩ := success_inv hrun
  obtain ⟨bid, hkey, hopt⟩ := dispatchAndEnrich_success_inv hd
  subst hopt
  refine ⟨rfl, ?_, ?_⟩
  · intro het
    have : (dispatchKey req).bind buildFunction = some BuilderId.agents := by
      simp [dispatchKey, het]
      decide
    rw [this] at hkey
    simpa using hkey.symm
  · intro het hne
    simp only [isAgentsEndpoint]
    cases hep : req.body.endpoint with
    | none => decide
    | some x =>
      have hx : x ≠ EModelEndpoint.agents := by
        intro hx
        exact hne (by rw [hep, hx])
      simpa [beq_iff_eq] using hx

/-- Witness for C10: `endpointType` agents with `endpoint` openAI selects the
agents builder but does not bind the request. -/
theorem claim_c10_witness :
    buildEndpointOption envNoSpecs reqAgentsType = .success optAgentsType ∧
    optAgentsType.builderCall.builderId = .agents ∧
    optAgentsType.builderCall.reqBound = false := by
  have h : buildEndpointOption envNoSpecs reqAgentsType = .success optAgentsType := by decide
  obtain ⟨h1, h2, h3⟩ := claim_c10_agents_binding envNoSpecs reqAgentsType optAgentsType h
  exact ⟨h, h2 rfl, h3 rfl (by decide)⟩

end LibreChat
